import Mathlib

/-!
# Verification of the finland-energidb price export pipeline

Shallow embedding of `scripts/elering_price_exporter.py` and
`scripts/utils/influxdb.py`.

Modelling conventions:
* Python `dict` values become association lists `List (String × α)` in
  insertion order; a dict comprehension is a left fold of an
  overwrite-in-place insertion (`dictInsert`).
* Prices (`float`) are modelled as `ℚ`; the pipeline only moves prices
  around and never computes with them, so the representation is faithful
  to the dataflow.  A pandas `NaN` cell (missing value after the outer
  join) is `Option.none`.
* A pandas UTC datetime is represented by its epoch-second integer
  (`pd.to_datetime(_, unit="s", utc=True)` is injective on integers);
  `epochToUTC` recovers the calendar form.
* The pandas steps of `convert_to_dataframe` are embedded by their
  documented semantics:
  - `pd.DataFrame(prices).set_index("timestamp")["price"]` keeps the
    points in order, duplicates included; on an empty list the frame has
    no columns and `set_index` raises `KeyError`.
  - `pd.DataFrame(dict_of_series)` aligns the series: if all indexes are
    element-wise equal the common index is used as-is (duplicates kept,
    columns taken positionally); otherwise the index is the sorted set
    union of the indexes and every series is reindexed to it, which
    raises (`cannot reindex from a duplicate axis`) as soon as one
    series has a duplicated index, and fills missing labels with `NaN`.
  - `reset_index` + `melt(id_vars=["time"])` emits, for each value
    column in order, one long-format row per index entry.
* Exceptions are `Except` values; the outcome of the external InfluxDB
  write call is an oracle parameter of type `Except PyException Unit`.
-/

set_option maxRecDepth 100000

/-- A single price entry of the upstream JSON: `{timestamp, price}`. -/
structure PricePoint where
  timestamp : Int
  price : ℚ
deriving DecidableEq, Repr

/-- One long-format output row: `{time, area, value}`; `value = none`
models the pandas `NaN` produced by the outer join. -/
structure PriceRow where
  time : Int
  area : String
  value : Option ℚ
deriving DecidableEq, Repr

/-- The upstream JSON body `{success, data}`. -/
structure PriceResponse where
  success : Bool
  data : List (String × List PricePoint)
deriving DecidableEq, Repr

/-- Errors the pandas steps of `convert_to_dataframe` can raise. -/
inductive PandasError where
  /-- `set_index(col)` on a frame without that column. -/
  | keyError (col : String)
  /-- `cannot reindex from a duplicate axis`. -/
  | reindexError
deriving DecidableEq, Repr

deriving instance DecidableEq for Except

/-- The timestamp index of one region's series
(`pd.DataFrame(prices).set_index("timestamp")`). -/
def indexOf (ps : List PricePoint) : List Int :=
  ps.map (·.timestamp)

/-- One region's series as (timestamp, price) pairs. -/
def seriesOf (ps : List PricePoint) : List (Int × ℚ) :=
  ps.map fun p => (p.timestamp, p.price)

/-- Insert into a sorted list of timestamps (ascending). -/
def insertSorted (x : Int) : List Int → List Int
  | [] => [x]
  | y :: ys => if x ≤ y then x :: y :: ys else y :: insertSorted x ys

/-- Sort timestamps ascending (insertion sort). -/
def sortInts (l : List Int) : List Int :=
  l.foldr insertSorted []

/-- The index of the wide frame when the per-region indexes differ:
pandas' sorted set union of all region indexes. -/
def unionIndex (data : List (String × List PricePoint)) : List Int :=
  sortInts ((data.flatMap fun c => indexOf c.2).dedup)

/-- Embedding of `convert_to_dataframe` (elering_price_exporter.py:70-84):
build one series per region, align them into a wide frame keyed by
timestamp, then melt to long format (one row per region × index entry,
regions in mapping order). -/
def convert_to_dataframe (data : List (String × List PricePoint)) :
    Except PandasError (List PriceRow) :=
  if data.any fun c => c.2.isEmpty then
    .error (.keyError "timestamp")
  else
    match data with
    | [] => .ok []
    | (_, ps₀) :: rest =>
      if rest.all fun c => indexOf c.2 == indexOf ps₀ then
        .ok (data.flatMap fun c =>
          c.2.map fun p => ⟨p.timestamp, c.1, some p.price⟩)
      else if data.any fun c => decide ¬(indexOf c.2).Nodup then
        .error .reindexError
      else
        .ok (data.flatMap fun c =>
          (unionIndex data).map fun t => ⟨t, c.1, (seriesOf c.2).lookup t⟩)

/-- Modelling of Python `str.upper()` on one character (the region codes
are ASCII): shift a lowercase ASCII letter to its uppercase form. -/
def upperChar (c : Char) : Char :=
  if 97 ≤ c.toNat ∧ c.toNat ≤ 122 then Char.ofNat (c.toNat - 32) else c

/-- Modelling of Python `str.upper()` on ASCII strings. -/
def pyUpper (s : String) : String :=
  ⟨s.data.map upperChar⟩

/-- One insertion step of a Python dict: overwrite the value in place if
the key exists, else append at the end. -/
def dictInsert (d : List (String × α)) (k : String) (v : α) :
    List (String × α) :=
  if d.any fun p => p.1 == k then
    d.map fun p => if p.1 == k then (k, v) else p
  else
    d ++ [(k, v)]

/-- The caller's normalization (elering_price_exporter.py:107):
`data["data"] = {k.upper(): v for k, v in data["data"].items()}`. -/
def upperDict (d : List (String × α)) : List (String × α) :=
  d.foldl (fun acc p => dictInsert acc (pyUpper p.1) p.2) []

/-- The transform stage of `main` (elering_price_exporter.py:104-111):
uppercase the region keys, then convert if `success` is true
(`none` models the `success = false` path, which logs and skips). -/
def main_transform (r : PriceResponse) :
    Option (Except PandasError (List PriceRow)) :=
  if r.success then some (convert_to_dataframe (upperDict r.data)) else none

/-- Epoch seconds to a UTC civil date-time
`(year, month, day, hour, minute, second)` (proleptic Gregorian). -/
def epochToUTC (t : Int) : Int × Nat × Nat × Nat × Nat × Nat :=
  let days : Int := t.fdiv 86400
  let secs : Nat := (t - days * 86400).toNat
  let z : Int := days + 719468
  let era : Int := z.fdiv 146097
  let doe : Nat := (z - era * 146097).toNat
  let yoe : Nat := (doe - doe / 1460 + doe / 36524 - doe / 146096) / 365
  let doy : Nat := doe - (365 * yoe + yoe / 4 - yoe / 100)
  let mp : Nat := (5 * doy + 2) / 153
  let d : Nat := doy - (153 * mp + 2) / 5 + 1
  let m : Nat := if mp < 10 then mp + 3 else mp - 9
  let y : Int := (yoe : Int) + era * 400 + (if m ≤ 2 then 1 else 0)
  (y, m, d, secs / 3600, secs % 3600 / 60, secs % 60)

/-- The Python exception classes that matter to `utils/influxdb.py`:
the three caught classes, `ApiException`, and a catch-all for all other
exception classes (e.g. a network timeout). -/
inductive PyException where
  | apiException (status : Nat) (reason : String)
  | valueError (msg : String)
  | typeError (msg : String)
  | runtimeError (msg : String)
  | otherException (exnClass : String)
deriving DecidableEq, Repr

/-- Connection parameters after merging CLI flags with environment
variables (`argparse` default: the env value, possibly absent). -/
structure InfluxConfig where
  url : Option String
  token : Option String
  org : Option String
  bucket : Option String
deriving DecidableEq, Repr

/-- The message of `get_influxdb_args`'s `RuntimeError` (influxdb.py:32-34). -/
def missingMsg (flag env : String) : String :=
  "Parameter missing: add --" ++ flag ++ " or " ++ env ++ " environment variable"

/-- Embedding of `get_influxdb_args` (influxdb.py:11-38): check the four
mandatory parameters in order and raise `RuntimeError` at the first one
that is absent from both CLI flags and environment variables. -/
def get_influxdb_args (cfg : InfluxConfig) :
    Except PyException (String × String × String × String) :=
  match cfg.url with
  | none => .error (.runtimeError (missingMsg "influxdb-url" "INFLUXDB_URL"))
  | some url =>
    match cfg.token with
    | none => .error (.runtimeError (missingMsg "influxdb-token" "INFLUXDB_TOKEN"))
    | some token =>
      match cfg.org with
      | none => .error (.runtimeError (missingMsg "influxdb-org" "INFLUXDB_ORG"))
      | some org =>
        match cfg.bucket with
        | none => .error (.runtimeError (missingMsg "influxdb-bucket" "INFLUXDB_BUCKET"))
        | some bucket => .ok (url, token, org, bucket)

/-- The exception classes caught by `write_dataframe_to_influxdb`'s two
`except` clauses (influxdb.py:80-88): `ApiException` and
`(ValueError, TypeError, RuntimeError)`. -/
def isCaughtByWriter : PyException → Bool
  | .apiException _ _ => true
  | .valueError _ => true
  | .typeError _ => true
  | .runtimeError _ => true
  | .otherException _ => false

/-- Embedding of `write_dataframe_to_influxdb` (influxdb.py:51-88).
The body of the `try` resolves the connection parameters, then performs
the external write call, whose outcome is the oracle `writeOutcome`
(only reached when parameter resolution succeeded).  A caught exception
is logged and turned into `return False`; any other exception
propagates (`.error`). -/
def write_dataframe_to_influxdb (df : List PriceRow)
    (measurement_name : String) (cfg : InfluxConfig)
    (writeOutcome : Except PyException Unit) : Except PyException Bool :=
  let body : Except PyException Unit := do
    let _ ← get_influxdb_args cfg
    writeOutcome
  match body with
  | .ok _ => .ok true
  | .error e => if isCaughtByWriter e then .ok false else .error e

/-- Modelling of Python `str.lower()` on ASCII characters. -/
def lowerChar (c : Char) : Char :=
  if 65 ≤ c.toNat ∧ c.toNat ≤ 90 then Char.ofNat (c.toNat + 32) else c

/-- Modelling of Python `str.lower()` on ASCII strings. -/
def pyLower (s : String) : String :=
  ⟨s.data.map lowerChar⟩

/-- Index of the last occurrence of a character (`str.rfind`): `-1` when
absent. -/
def lastIndexOf (cs : List Char) (c : Char) : Int :=
  match cs with
  | [] => -1
  | x :: xs =>
    let r := lastIndexOf xs c
    if r ≥ 0 then r + 1 else if x = c then 0 else -1

/-- Embedding of `os.path.splitext(p)[1]` (posix): the suffix from the
last dot of the basename, unless every preceding basename character is
itself a dot (leading dots carry no extension). -/
def pySplitextExt (p : String) : String :=
  let cs := p.data
  let sepIndex := lastIndexOf cs '/'
  let dotIndex := lastIndexOf cs '.'
  if dotIndex > sepIndex ∧ ((List.range cs.length).any fun i =>
      decide (sepIndex < (i : Int) ∧ (i : Int) < dotIndex ∧ cs.getD i '.' ≠ '.')) then
    ⟨cs.drop dotIndex.toNat⟩
  else
    ""

/-- Outcome of `save_to_file` on one path: a file written in one of the
three supported formats, or a skip with the logged warning. -/
inductive SaveResult where
  | written (filename : String) (format : String)
  | skipped (warning : String)
deriving DecidableEq, Repr

/-- Embedding of `save_to_file` (elering_price_exporter.py:87-101):
dispatch on the lower-cased extension; unsupported extensions only warn. -/
def save_to_file (df : List PriceRow) (filename : String) : SaveResult :=
  let ext := pyLower (pySplitextExt filename)
  if ext = ".parquet" then .written filename "parquet"
  else if ext = ".csv" then .written filename "csv"
  else if ext = ".xlsx" then .written filename "xlsx"
  else .skipped ("Unsupported file extension: " ++ ext ++ ". Skipping file: " ++ filename)

/-- The export loop of `main` (elering_price_exporter.py:115-117): every
path is processed, independently of the outcomes of the previous ones. -/
def saveAll (df : List PriceRow) (filenames : List String) : List SaveResult :=
  filenames.map (save_to_file df)

/-- The files actually written by a run of the export loop. -/
def writtenFiles (rs : List SaveResult) : List String :=
  rs.filterMap fun r =>
    match r with
    | .written f _ => some f
    | .skipped _ => none

example : pySplitextExt "out.csv" = ".csv" := by decide
example : pySplitextExt "out.txt" = ".txt" := by decide
example : pySplitextExt "archive.tar.gz" = ".gz" := by decide
example : pySplitextExt ".bashrc" = "" := by decide
example : pySplitextExt "dir.d/file" = "" := by decide
example : pySplitextExt "noext" = "" := by decide
example : pyLower (pySplitextExt "OUT.CSV") = ".csv" := by decide

example :
    writtenFiles (saveAll [] ["out.csv", "out.txt"]) = ["out.csv"] := by decide

example :
    get_influxdb_args ⟨none, some "t", some "o", some "b"⟩ =
      .error (.runtimeError
        "Parameter missing: add --influxdb-url or INFLUXDB_URL environment variable") := by
  decide

example :
    write_dataframe_to_influxdb [] "price" ⟨none, some "t", some "o", some "b"⟩ (.ok ()) =
      .ok false := by decide

example :
    write_dataframe_to_influxdb [] "price" ⟨some "u", some "t", some "o", some "b"⟩
      (.error (.apiException 401 "Unauthorized")) = .ok false := by decide

example :
    write_dataframe_to_influxdb [] "price" ⟨some "u", some "t", some "o", some "b"⟩
      (.error (.otherException "TimeoutException")) =
      .error (.otherException "TimeoutException") := by decide

example : epochToUTC 1700000000 = (2023, 11, 14, 22, 13, 20) := by decide

example :
    convert_to_dataframe [("EE", [⟨1700000000, mkRat 226 5⟩])] =
      .ok [⟨1700000000, "EE", some (mkRat 226 5)⟩] := by decide

example : convert_to_dataframe [] = .ok [] := rfl

example :
    convert_to_dataframe [("EE", [⟨100, 1⟩, ⟨100, 2⟩])] =
      .ok [⟨100, "EE", some 1⟩, ⟨100, "EE", some 2⟩] := by decide

example :
    convert_to_dataframe [("EE", [⟨1, 1⟩, ⟨1, 2⟩]), ("FI", [⟨1, 3⟩])] =
      .error .reindexError := by decide

example :
    convert_to_dataframe [("EE", [⟨1, 1⟩, ⟨2, 2⟩]), ("FI", [⟨2, 3⟩])] =
      .ok [⟨1, "EE", some 1⟩, ⟨2, "EE", some 2⟩,
           ⟨1, "FI", none⟩, ⟨2, "FI", some 3⟩] := by decide

example : upperDict [("ee", 1), ("EE", 2)] = [("EE", 2)] := by decide

example :
    main_transform ⟨true, [("ee", [⟨1700000000, mkRat 226 5⟩])]⟩ =
      some (.ok [⟨1700000000, "EE", some (mkRat 226 5)⟩]) := by decide

/-- The guard structure of `save_to_file`: is the lower-cased extension
one of the three supported formats? -/
def supportedExt (f : String) : Bool :=
  pyLower (pySplitextExt f) == ".parquet" ||
  pyLower (pySplitextExt f) == ".csv" ||
  pyLower (pySplitextExt f) == ".xlsx"

/-- Is a character a lowercase ASCII letter? -/
def isAsciiLower (c : Char) : Bool :=
  decide (97 ≤ c.toNat ∧ c.toNat ≤ 122)

lemma upperChar_not_lower (c : Char) : isAsciiLower (upperChar c) = false := by
  unfold upperChar
  split
  case isTrue h =>
    obtain ⟨h1, h2⟩ := h
    revert h1 h2
    generalize c.toNat = n
    intro h1 h2
    interval_cases n <;> decide
  case isFalse h =>
    exact decide_eq_false h

lemma upperChar_idem (c : Char) : upperChar (upperChar c) = upperChar c := by
  have key : ∀ d : Char, isAsciiLower d = false → upperChar d = d := by
    intro d hd
    unfold upperChar
    rw [if_neg (of_decide_eq_false hd)]
  rw [key _ (upperChar_not_lower c)]

lemma pyUpper_idem (s : String) : pyUpper (pyUpper s) = pyUpper s := by
  unfold pyUpper
  simp [List.map_map, Function.comp_def, upperChar_idem]

/-- C7: on the spec's concrete example input the transform step yields
exactly one row with time 1700000000 s = 2023-11-14T22:13:20Z (UTC),
area "EE" and value 45.2 (= 226/5). -/
theorem C7_concrete_example :
    main_transform ⟨true, [("ee", [⟨1700000000, mkRat 226 5⟩])]⟩ =
      some (.ok [⟨1700000000, "EE", some (mkRat 226 5)⟩]) ∧
    (45.2 : ℚ) = mkRat 226 5 ∧
    epochToUTC 1700000000 = (2023, 11, 14, 22, 13, 20) :=
  ⟨by decide, by norm_num, by decide⟩

/-- C8: an empty `data` mapping produces an empty row sequence and no
error, both at the transformer itself and through `main`'s path. -/
theorem C8_empty_mapping :
    convert_to_dataframe [] = .ok [] ∧
    main_transform ⟨true, []⟩ = some (.ok []) :=
  ⟨rfl, rfl⟩

/-- C10: a region mapped to an empty sequence makes
`convert_to_dataframe` raise (`set_index("timestamp")` on a frame with
no columns), instead of treating the region as all-missing. -/
theorem C10_empty_region_raises (data : List (String × List PricePoint))
    (k : String) (h : (k, []) ∈ data) :
    convert_to_dataframe data = .error (.keyError "timestamp") := by
  have hany : (data.any fun c => c.2.isEmpty) = true :=
    List.any_eq_true.mpr ⟨(k, []), h, rfl⟩
  unfold convert_to_dataframe
  rw [if_pos hany]

/-- Witness for C10 at the concrete input `{"EE": []}`. -/
theorem C10_empty_region_raises_witness :
    convert_to_dataframe [("EE", [])] = .error (.keyError "timestamp") :=
  C10_empty_region_raises [("EE", [])] "EE" (by decide)

/-- C2 counterexample: with `url` absent from flags and environment, the
database write step returns `False` normally — the configuration
`RuntimeError` is converted into a boolean failure return rather than
terminating the process. -/
theorem C2_counterexample :
    write_dataframe_to_influxdb [] "price"
      ⟨none, some "token0", some "org0", some "bucket0"⟩ (.ok ()) =
      .ok false := by decide

/-- C2 amended: when any of the four connection parameters is absent,
`get_influxdb_args` raises a `RuntimeError` before any network call
(the result does not depend on the write call's outcome), but
`write_dataframe_to_influxdb` catches it and returns `False`; no
exception propagates out of the write step. -/
theorem C2_missing_param_caught (cfg : InfluxConfig) (df : List PriceRow)
    (m : String)
    (h : cfg.url = none ∨ cfg.token = none ∨ cfg.org = none ∨ cfg.bucket = none) :
    (∃ msg, get_influxdb_args cfg = .error (.runtimeError msg)) ∧
    ∀ w : Except PyException Unit,
      write_dataframe_to_influxdb df m cfg w = .ok false := by
  obtain ⟨u, t, o, b⟩ := cfg
  have herr : ∃ msg,
      get_influxdb_args ⟨u, t, o, b⟩ = .error (.runtimeError msg) := by
    cases u with
    | none => exact ⟨_, rfl⟩
    | some u =>
      cases t with
      | none => exact ⟨_, rfl⟩
      | some t =>
        cases o with
        | none => exact ⟨_, rfl⟩
        | some o =>
          cases b with
          | none => exact ⟨_, rfl⟩
          | some b => simp at h
  obtain ⟨msg, hmsg⟩ := herr
  refine ⟨⟨msg, hmsg⟩, fun w => ?_⟩
  unfold write_dataframe_to_influxdb
  simp only [hmsg, Except.bind]
  rfl

/-- Witness for C2's amended theorem: missing `url`, write outcome
irrelevant (here a would-be timeout), still a plain `False` return. -/
theorem C2_missing_param_caught_witness :
    write_dataframe_to_influxdb [] "price"
      ⟨none, some "token0", some "org0", some "bucket0"⟩
      (.error (.otherException "TimeoutException")) = .ok false :=
  (C2_missing_param_caught ⟨none, some "token0", some "org0", some "bucket0"⟩
    [] "price" (Or.inl rfl)).2 _

/-- C4: with complete connection parameters, the write step returns
`False` without raising for an `ApiException` of any status (401
included) and for `ValueError` / `TypeError` / `RuntimeError`, while
every other exception class raised during the write propagates. -/
theorem C4_writer_exception_classes (df : List PriceRow) (m : String)
    (u t o b : String) :
    (∀ s r, write_dataframe_to_influxdb df m ⟨some u, some t, some o, some b⟩
      (.error (.apiException s r)) = .ok false) ∧
    (∀ msg, write_dataframe_to_influxdb df m ⟨some u, some t, some o, some b⟩
      (.error (.valueError msg)) = .ok false) ∧
    (∀ msg, write_dataframe_to_influxdb df m ⟨some u, some t, some o, some b⟩
      (.error (.typeError msg)) = .ok false) ∧
    (∀ msg, write_dataframe_to_influxdb df m ⟨some u, some t, some o, some b⟩
      (.error (.runtimeError msg)) = .ok false) ∧
    (∀ exnClass, write_dataframe_to_influxdb df m ⟨some u, some t, some o, some b⟩
      (.error (.otherException exnClass)) = .error (.otherException exnClass)) ∧
    (∀ e, write_dataframe_to_influxdb df m ⟨some u, some t, some o, some b⟩
      (.error e) = if isCaughtByWriter e then .ok false else .error e) :=
  ⟨fun _ _ => rfl, fun _ => rfl, fun _ => rfl, fun _ => rfl, fun _ => rfl,
   fun e => by cases e <;> rfl⟩

/-- C3 counterexample: a region with two entries at the same timestamp
keeps BOTH rows (values 1 then 2), not a single last-value row. -/
theorem C3_counterexample :
    convert_to_dataframe [("EE", [⟨100, 1⟩, ⟨100, 2⟩])] =
      .ok [⟨100, "EE", some 1⟩, ⟨100, "EE", some 2⟩] ∧
    ((convert_to_dataframe [("EE", [⟨100, 1⟩, ⟨100, 2⟩])]).toOption.getD
      []).countP (fun r => r.area == "EE" && r.time == 100) = 2 := by
  constructor
  · decide
  · decide

/-- C3 amended: duplicate timestamps within a region are not collapsed:
when the per-region indexes all coincide (e.g. a single region) every
entry yields its own output row, in sequence order; when the indexes
differ, a duplicated timestamp makes the conversion fail with the
reindex error instead of producing rows. -/
theorem C3_duplicates_retained (k : String) (ps : List PricePoint)
    (hne : ps ≠ []) :
    convert_to_dataframe [(k, ps)] =
      .ok (ps.map fun p => ⟨p.timestamp, k, some p.price⟩) ∧
    convert_to_dataframe [("EE", [⟨1, 1⟩, ⟨1, 2⟩]), ("FI", [⟨1, 3⟩])] =
      .error .reindexError := by
  refine ⟨?_, by decide⟩
  have hemp : ps.isEmpty = false := by
    cases ps with
    | nil => exact absurd rfl hne
    | cons p ps => rfl
  unfold convert_to_dataframe
  simp [hemp]

/-- Witness for C3's amended theorem at a two-entry duplicate region. -/
theorem C3_duplicates_retained_witness :
    convert_to_dataframe [("EE", [⟨5, 1⟩, ⟨5, 2⟩])] =
      .ok [⟨5, "EE", some 1⟩, ⟨5, "EE", some 2⟩] :=
  (C3_duplicates_retained "EE" [⟨5, 1⟩, ⟨5, 2⟩] (by decide)).1

/-- C9: two input keys that agree after uppercasing collapse to one
entry of the normalized dict holding the later key's sequence; the
earlier sequence is absent from the transform's input and output. -/
theorem C9_case_collision (k₁ k₂ : String) (l₁ l₂ : List PricePoint)
    (h : pyUpper k₁ = pyUpper k₂) :
    upperDict [(k₁, l₁), (k₂, l₂)] = [(pyUpper k₂, l₂)] ∧
    convert_to_dataframe (upperDict [(k₁, l₁), (k₂, l₂)]) =
      convert_to_dataframe [(pyUpper k₂, l₂)] := by
  have h1 : upperDict [(k₁, l₁), (k₂, l₂)] = [(pyUpper k₂, l₂)] := by
    unfold upperDict dictInsert
    simp [h]
  exact ⟨h1, by rw [h1]⟩

/-- Witness for C9 at keys "ee" and "EE". -/
theorem C9_case_collision_witness :
    upperDict [("ee", [(⟨1, 7⟩ : PricePoint)]), ("EE", [⟨2, 9⟩])] =
      [("EE", [⟨2, 9⟩])] ∧
    convert_to_dataframe
        (upperDict [("ee", [(⟨1, 7⟩ : PricePoint)]), ("EE", [⟨2, 9⟩])]) =
      convert_to_dataframe [("EE", [⟨2, 9⟩])] := by
  have := C9_case_collision "ee" "EE" [⟨1, 7⟩] [⟨2, 9⟩] (by decide)
  simpa using this

lemma writtenFiles_save (df : List PriceRow) (f : String) :
    (match save_to_file df f with
      | .written g _ => some g
      | .skipped _ => none) =
      if supportedExt f then some f else none := by
  unfold save_to_file supportedExt
  by_cases h1 : pyLower (pySplitextExt f) = ".parquet"
  · simp [h1]
  · by_cases h2 : pyLower (pySplitextExt f) = ".csv"
    · simp [h1, h2]
    · by_cases h3 : pyLower (pySplitextExt f) = ".xlsx"
      · simp [h1, h2, h3]
      · simp [h1, h2, h3]

/-- C6: the export loop visits every requested path (skips never abort
the loop), writes a file exactly for the paths whose lower-cased
extension is `.parquet`, `.csv` or `.xlsx`, and in particular a request
for `out.csv` and `out.txt` writes exactly the one file `out.csv`. -/
theorem C6_unsupported_extension_skipped (df : List PriceRow)
    (filenames : List String) :
    (saveAll df filenames).length = filenames.length ∧
    writtenFiles (saveAll df filenames) = filenames.filter supportedExt ∧
    writtenFiles (saveAll df ["out.csv", "out.txt"]) = ["out.csv"] := by
  have main : ∀ fns : List String,
      writtenFiles (saveAll df fns) = fns.filter supportedExt := by
    intro fns
    induction fns with
    | nil => rfl
    | cons f fs ih =>
      simp only [saveAll, List.map_cons] at ih ⊢
      rw [writtenFiles, List.filterMap_cons, List.filter_cons]
      rw [writtenFiles] at ih
      by_cases hf : supportedExt f = true
      · rw [writtenFiles_save, if_pos hf, hf, ih]
        simp
      · rw [writtenFiles_save, if_neg hf, ih]
        simp [hf]
  refine ⟨by simp [saveAll], main filenames, ?_⟩
  rw [main ["out.csv", "out.txt"]]
  decide

lemma convert_area_mem (data : List (String × List PricePoint))
    (rows : List PriceRow) (h : convert_to_dataframe data = .ok rows) :
    ∀ r ∈ rows, r.area ∈ data.map Prod.fst := by
  intro r hr
  unfold convert_to_dataframe at h
  split at h
  · exact absurd h (by simp)
  · split at h
    next =>
      injection h with h
      subst h
      exact absurd hr (List.not_mem_nil r)
    next k ps₀ rest =>
      split at h
      · injection h with h
        subst h
        obtain ⟨c, hc, hmem⟩ := List.mem_flatMap.mp hr
        obtain ⟨p, _, rfl⟩ := List.mem_map.mp hmem
        exact List.mem_map.mpr ⟨c, hc, rfl⟩
      · split at h
        · exact absurd h (by simp)
        · injection h with h
          subst h
          obtain ⟨c, hc, hmem⟩ := List.mem_flatMap.mp hr
          obtain ⟨t, _, rfl⟩ := List.mem_map.mp hmem
          exact List.mem_map.mpr ⟨c, hc, rfl⟩

lemma dictInsert_keys (d : List (String × α)) (k : String) (v : α) :
    ∀ key ∈ (dictInsert d k v).map Prod.fst,
      key ∈ d.map Prod.fst ∨ key = k := by
  intro key hkey
  unfold dictInsert at hkey
  split at hkey
  · obtain ⟨q', hq', hq'e⟩ := List.mem_map.mp hkey
    obtain ⟨q, hq, rfl⟩ := List.mem_map.mp hq'
    by_cases hqk : (q.1 == k) = true
    · right
      rw [if_pos hqk] at hq'e
      exact hq'e.symm
    · left
      rw [if_neg hqk] at hq'e
      exact List.mem_map.mpr ⟨q, hq, hq'e⟩
  · rw [List.map_append] at hkey
    rcases List.mem_append.mp hkey with h | h
    · exact Or.inl h
    · right
      simpa using h

lemma upperDict_keys (d : List (String × α)) :
    ∀ key ∈ (upperDict d).map Prod.fst, ∃ s, key = pyUpper s := by
  suffices h : ∀ acc : List (String × α),
      (∀ key ∈ acc.map Prod.fst, ∃ s, key = pyUpper s) →
      ∀ key ∈ (d.foldl (fun acc p => dictInsert acc (pyUpper p.1) p.2)
        acc).map Prod.fst, ∃ s, key = pyUpper s by
    exact h [] (by simp)
  induction d with
  | nil => exact fun acc hacc => hacc
  | cons p d ih =>
    intro acc hacc
    simp only [List.foldl_cons]
    apply ih
    intro key hkey
    rcases dictInsert_keys acc (pyUpper p.1) p.2 key hkey with h | h
    · exact hacc key h
    · exact ⟨p.1, h⟩

/-- C5: every row of a successful run of the transform stage has a fully
uppercase area (no lowercase ASCII letter, and re-normalizing the area
leaves it unchanged), whatever the case of the input region keys. -/
theorem C5_output_areas_uppercase (resp : PriceResponse)
    (rows : List PriceRow) (h : main_transform resp = some (.ok rows)) :
    ∀ r ∈ rows,
      (r.area.data.all fun c => !isAsciiLower c) = true ∧
      pyUpper r.area = r.area := by
  unfold main_transform at h
  split at h
  case isTrue hs =>
    injection h with h
    intro r hr
    have hkey := convert_area_mem _ _ h r hr
    obtain ⟨s, hs'⟩ := upperDict_keys resp.data r.area hkey
    constructor
    · rw [hs']
      apply List.all_eq_true.mpr
      intro c hc
      obtain ⟨c₀, _, rfl⟩ := List.mem_map.mp (by simpa [pyUpper] using hc)
      simp [upperChar_not_lower]
    · rw [hs', pyUpper_idem]
  case isFalse => exact absurd h (by simp)

/-- Witness for C5 on the response `{"ee": [{0, 1}]}`. -/
theorem C5_output_areas_uppercase_witness :
    ((⟨0, "EE", some 1⟩ : PriceRow).area.data.all
      fun c => !isAsciiLower c) = true ∧
    pyUpper (⟨0, "EE", some 1⟩ : PriceRow).area =
      (⟨0, "EE", some 1⟩ : PriceRow).area :=
  C5_output_areas_uppercase ⟨true, [("ee", [⟨0, 1⟩])]⟩
    [⟨0, "EE", some 1⟩] (by decide) ⟨0, "EE", some 1⟩ (by decide)

/-- All timestamps of all regions, in mapping order (with repetitions). -/
def allTimestamps (data : List (String × List PricePoint)) : List Int :=
  data.flatMap fun c => indexOf c.2

/-- The series stored for region `c` (empty when absent). -/
def regionSeries (data : List (String × List PricePoint)) (c : String) :
    List (Int × ℚ) :=
  seriesOf ((data.lookup c).getD [])

/-- The melt of a wide frame with row index `idx` and one column per
region: one row per (region, index entry) cell, value by index lookup. -/
def rowsOf (data : List (String × List PricePoint)) (idx : List Int) :
    List PriceRow :=
  data.flatMap fun c => idx.map fun t => ⟨t, c.1, (seriesOf c.2).lookup t⟩

lemma insertSorted_perm (x : Int) (l : List Int) :
    List.Perm (insertSorted x l) (x :: l) := by
  induction l with
  | nil => rfl
  | cons y ys ih =>
    unfold insertSorted
    split
    · rfl
    · exact (List.Perm.cons y ih).trans (List.Perm.swap x y ys)

lemma sortInts_perm (l : List Int) : List.Perm (sortInts l) l := by
  induction l with
  | nil => rfl
  | cons x xs ih =>
    exact (insertSorted_perm x (sortInts xs)).trans (List.Perm.cons x ih)

lemma flatMap_congr_mem {α β : Type} (l : List α) (f g : α → List β)
    (h : ∀ a ∈ l, f a = g a) : l.flatMap f = l.flatMap g := by
  induction l with
  | nil => rfl
  | cons a l ih =>
    simp only [List.flatMap_cons]
    rw [h a (List.mem_cons_self a l), ih fun a ha => h a (List.mem_cons_of_mem _ ha)]

lemma map_points_eq (k : String) (ps : List PricePoint)
    (h : (indexOf ps).Nodup) :
    ps.map (fun p => (⟨p.timestamp, k, some p.price⟩ : PriceRow)) =
    (indexOf ps).map fun t => ⟨t, k, (seriesOf ps).lookup t⟩ := by
  induction ps with
  | nil => rfl
  | cons p ps ih =>
    have h0 : (p.timestamp :: indexOf ps).Nodup := h
    have h' : p.timestamp ∉ indexOf ps ∧ (indexOf ps).Nodup :=
      List.nodup_cons.mp h0
    simp only [indexOf, seriesOf, List.map_cons] at ih ⊢
    congr 1
    · simp [List.lookup]
    · rw [ih h'.2]
      apply List.map_congr_left
      intro t ht
      have hne : (t == p.timestamp) = false := by
        apply beq_eq_false_iff_ne.mpr
        intro he
        exact h'.1 (he ▸ ht)
      simp [List.lookup, hne]

lemma rowsOf_area_mem (d : List (String × List PricePoint)) (idx : List Int) :
    ∀ r ∈ rowsOf d idx, r.area ∈ d.map Prod.fst := by
  intro r hr
  obtain ⟨c, hc, hmem⟩ := List.mem_flatMap.mp hr
  obtain ⟨t, _, rfl⟩ := List.mem_map.mp hmem
  exact List.mem_map.mpr ⟨c, hc, rfl⟩

lemma lookup_of_mem_nodup (d : List (String × List PricePoint)) (c : String)
    (ps : List PricePoint) (hkeys : (d.map Prod.fst).Nodup)
    (h : (c, ps) ∈ d) : d.lookup c = some ps := by
  induction d with
  | nil => cases h
  | cons q d ih =>
    rw [List.map_cons] at hkeys
    have hkeys' := List.nodup_cons.mp hkeys
    rcases List.mem_cons.mp h with he | hm
    · subst he
      simp [List.lookup]
    · have hq : (c == q.1) = false := by
        apply beq_eq_false_iff_ne.mpr
        intro he
        exact hkeys'.1 (he ▸ List.mem_map.mpr ⟨(c, ps), hm, rfl⟩)
      clear h
      obtain ⟨q₁, q₂⟩ := q
      simp only [List.lookup, hq]
      exact ih hkeys'.2 hm

lemma dictInsert_keys_nodup {α : Type} (d : List (String × α)) (k : String)
    (v : α) (h : (d.map Prod.fst).Nodup) :
    ((dictInsert d k v).map Prod.fst).Nodup := by
  unfold dictInsert
  split
  case isTrue hany =>
    have hsame : (d.map fun p => if p.1 == k then (k, v) else p).map Prod.fst =
        d.map Prod.fst := by
      rw [List.map_map]
      apply List.map_congr_left
      intro p _
      by_cases hp : (p.1 == k) = true
      · simp [Function.comp, hp, (eq_of_beq hp).symm]
      · simp [Function.comp, hp]
    rw [hsame]
    exact h
  case isFalse hany =>
    rw [List.map_append]
    refine List.nodup_append.mpr ⟨h, List.nodup_singleton k, ?_⟩
    intro a ha hb
    have hak : a = k := by simpa using hb
    obtain ⟨p, hp, hpa⟩ := List.mem_map.mp ha
    have : d.any (fun q => q.1 == k) = true :=
      List.any_eq_true.mpr ⟨p, hp, by simp [hpa, hak]⟩
    exact hany this

lemma upperDict_keys_nodup {α : Type} (d : List (String × α)) :
    ((upperDict d).map Prod.fst).Nodup := by
  suffices h : ∀ acc : List (String × α), (acc.map Prod.fst).Nodup →
      ((d.foldl (fun acc p => dictInsert acc (pyUpper p.1) p.2)
        acc).map Prod.fst).Nodup by
    exact h [] (by simp)
  induction d with
  | nil => exact fun acc hacc => hacc
  | cons p d ih =>
    intro acc hacc
    simp only [List.foldl_cons]
    exact ih _ (dictInsert_keys_nodup acc (pyUpper p.1) p.2 hacc)

lemma dedup_length_append_subset (l l' : List Int) (hnd : l.Nodup)
    (hsub : ∀ x ∈ l', x ∈ l) : (l ++ l').dedup.length = l.length := by
  rw [← List.card_toFinset, List.toFinset_append]
  have : l'.toFinset ⊆ l.toFinset := by
    intro x hx
    exact List.mem_toFinset.mpr (hsub x (List.mem_toFinset.mp hx))
  rw [Finset.union_eq_left.mpr this]
  exact List.toFinset_card_of_nodup hnd

lemma rowsOf_spec (d : List (String × List PricePoint)) (idx : List Int)
    (hkeys : (d.map Prod.fst).Nodup) (hidx : idx.Nodup) :
    (rowsOf d idx).length = d.length * idx.length ∧
    ∀ c ps, (c, ps) ∈ d → ∀ t ∈ idx,
      (rowsOf d idx).countP (fun r => r.area == c && r.time == t) = 1 ∧
      (⟨t, c, (seriesOf ps).lookup t⟩ : PriceRow) ∈ rowsOf d idx := by
  induction d with
  | nil =>
    exact ⟨by simp [rowsOf], fun c ps h => absurd h (List.not_mem_nil _)⟩
  | cons q d ih =>
    rw [List.map_cons] at hkeys
    have hk := List.nodup_cons.mp hkeys
    obtain ⟨ihlen, ihcnt⟩ := ih hk.2
    have hsplit : rowsOf (q :: d) idx =
        (idx.map fun t => ⟨t, q.1, (seriesOf q.2).lookup t⟩) ++
          rowsOf d idx := rfl
    constructor
    · rw [hsplit, List.length_append, List.length_map, ihlen, List.length_cons]
      ring
    · intro c ps hmem t ht
      rcases List.mem_cons.mp hmem with he | hm
      · have hc : c = q.1 := by rw [← he]
        have hps : ps = q.2 := by rw [← he]
        constructor
        · rw [hsplit, List.countP_append]
          have h1 : (idx.map fun t' =>
              (⟨t', q.1, (seriesOf q.2).lookup t'⟩ : PriceRow)).countP
              (fun r => r.area == c && r.time == t) = 1 := by
            rw [List.countP_map]
            have hone := List.count_eq_one_of_mem hidx ht
            simpa [Function.comp_def, hc, List.count] using hone
          have h2 : (rowsOf d idx).countP
              (fun r => r.area == c && r.time == t) = 0 := by
            apply List.countP_eq_zero.mpr
            intro r hr hpred
            rw [Bool.and_eq_true] at hpred
            have harea : (r.area == c) = true := hpred.1
            have : c ∈ d.map Prod.fst := eq_of_beq harea ▸ rowsOf_area_mem d idx r hr
            exact hk.1 (hc ▸ this)
          rw [h1, h2]
        · rw [hsplit, hc, hps]
          exact List.mem_append_left _ (List.mem_map.mpr ⟨t, ht, rfl⟩)
      · have hcd : c ∈ d.map Prod.fst := List.mem_map.mpr ⟨(c, ps), hm, rfl⟩
        have hcq : (q.1 == c) = false :=
          beq_eq_false_iff_ne.mpr fun he' => hk.1 (he' ▸ hcd)
        obtain ⟨hcnt, hmem'⟩ := ihcnt c ps hm t ht
        constructor
        · rw [hsplit, List.countP_append]
          have h1 : (idx.map fun t' =>
              (⟨t', q.1, (seriesOf q.2).lookup t'⟩ : PriceRow)).countP
              (fun r => r.area == c && r.time == t) = 0 := by
            apply List.countP_eq_zero.mpr
            intro r hr hpred
            obtain ⟨t', _, rfl⟩ := List.mem_map.mp hr
            simp [hcq] at hpred
          rw [h1, hcnt]
        · rw [hsplit]
          exact List.mem_append_right _ hmem'

lemma convert_complete_aux (d : List (String × List PricePoint))
    (idx : List Int) (hkeys : (d.map Prod.fst).Nodup) (hidx : idx.Nodup)
    (hlen : idx.length = (allTimestamps d).dedup.length)
    (hmem : ∀ t ∈ allTimestamps d, t ∈ idx) :
    (rowsOf d idx).length = d.length * (allTimestamps d).dedup.length ∧
    ∀ c ∈ d.map Prod.fst, ∀ t ∈ allTimestamps d,
      (rowsOf d idx).countP (fun r => r.area == c && r.time == t) = 1 ∧
      (⟨t, c, (regionSeries d c).lookup t⟩ : PriceRow) ∈ rowsOf d idx := by
  obtain ⟨hl, hcnt⟩ := rowsOf_spec d idx hkeys hidx
  refine ⟨by rw [hl, hlen], ?_⟩
  intro c hc t ht
  obtain ⟨⟨p₁, p₂⟩, hp, rfl⟩ := List.mem_map.mp hc
  have hreg : regionSeries d p₁ = seriesOf p₂ := by
    unfold regionSeries
    rw [lookup_of_mem_nodup d p₁ p₂ hkeys hp]
    rfl
  rw [hreg]
  exact hcnt p₁ p₂ hp t (hmem t ht)

lemma convert_complete (d : List (String × List PricePoint))
    (hkeys : (d.map Prod.fst).Nodup)
    (hne : ∀ c ∈ d, c.2 ≠ ([] : List PricePoint))
    (hnd : ∀ c ∈ d, (indexOf c.2).Nodup) :
    ∃ rows, convert_to_dataframe d = .ok rows ∧
      rows.length = d.length * (allTimestamps d).dedup.length ∧
      ∀ c ∈ d.map Prod.fst, ∀ t ∈ allTimestamps d,
        rows.countP (fun r => r.area == c && r.time == t) = 1 ∧
        (⟨t, c, (regionSeries d c).lookup t⟩ : PriceRow) ∈ rows := by
  have hemp : (d.any fun c => c.2.isEmpty) = false := by
    rw [List.any_eq_false]
    intro c hc
    simpa [List.isEmpty_iff] using hne c hc
  cases d with
  | nil =>
    exact ⟨[], rfl, by simp [allTimestamps], by simp⟩
  | cons q rest =>
    obtain ⟨k₀, ps₀⟩ := q
    have hidx₀ : (indexOf ps₀).Nodup :=
      hnd (k₀, ps₀) (List.mem_cons_self _ _)
    by_cases hall : (rest.all fun c => indexOf c.2 == indexOf ps₀) = true
    · have hsame : ∀ c ∈ (k₀, ps₀) :: rest, indexOf c.2 = indexOf ps₀ := by
        intro c hc
        rcases List.mem_cons.mp hc with he | hm
        · rw [he]
        · exact eq_of_beq (List.all_eq_true.mp hall c hm)
      have hsub : ∀ t ∈ allTimestamps rest, t ∈ indexOf ps₀ := by
        intro t ht
        obtain ⟨c, hc, htc⟩ := List.mem_flatMap.mp ht
        exact hsame c (List.mem_cons_of_mem _ hc) ▸ htc
      have hrows : convert_to_dataframe ((k₀, ps₀) :: rest) =
          .ok (rowsOf ((k₀, ps₀) :: rest) (indexOf ps₀)) := by
        unfold convert_to_dataframe
        simp only [hemp, Bool.false_eq_true, if_false, hall, if_true]
        congr 1
        apply flatMap_congr_mem
        intro c hc
        rw [map_points_eq c.1 c.2 (hnd c hc), hsame c hc]
      have hlen : (indexOf ps₀).length =
          (allTimestamps ((k₀, ps₀) :: rest)).dedup.length := by
        have : allTimestamps ((k₀, ps₀) :: rest) =
            indexOf ps₀ ++ allTimestamps rest := rfl
        rw [this, dedup_length_append_subset _ _ hidx₀ hsub]
      have hmem : ∀ t ∈ allTimestamps ((k₀, ps₀) :: rest), t ∈ indexOf ps₀ := by
        intro t ht
        rcases List.mem_append.mp ht with h | h
        · exact h
        · exact hsub t h
      obtain ⟨h1, h2⟩ :=
        convert_complete_aux ((k₀, ps₀) :: rest) (indexOf ps₀) hkeys hidx₀
          hlen hmem
      exact ⟨_, hrows, h1, h2⟩
    · have hallf : (rest.all fun c => indexOf c.2 == indexOf ps₀) = false := by
        simpa using hall
      have hdup : (((k₀, ps₀) :: rest).any fun c =>
          decide ¬(indexOf c.2).Nodup) = false := by
        rw [List.any_eq_false]
        intro c hc
        simp [hnd c hc]
      have hrows : convert_to_dataframe ((k₀, ps₀) :: rest) =
          .ok (rowsOf ((k₀, ps₀) :: rest)
            (unionIndex ((k₀, ps₀) :: rest))) := by
        unfold convert_to_dataframe
        simp only [hemp, Bool.false_eq_true, if_false, hallf, hdup]
        rfl
      have huni : (unionIndex ((k₀, ps₀) :: rest)).Nodup :=
        ((sortInts_perm _).nodup_iff).mpr (List.nodup_dedup _)
      have hlen : (unionIndex ((k₀, ps₀) :: rest)).length =
          (allTimestamps ((k₀, ps₀) :: rest)).dedup.length :=
        (sortInts_perm _).length_eq
      have hmem : ∀ t ∈ allTimestamps ((k₀, ps₀) :: rest),
          t ∈ unionIndex ((k₀, ps₀) :: rest) := by
        intro t ht
        exact ((sortInts_perm _).mem_iff).mpr (List.mem_dedup.mpr ht)
      obtain ⟨h1, h2⟩ :=
        convert_complete_aux ((k₀, ps₀) :: rest) _ hkeys huni hlen hmem
      exact ⟨_, hrows, h1, h2⟩

/-- C1 counterexample: for the successful response
`{"EE": [], "FI": [{timestamp 0, price 1}]}` (N = 2 regions, timestamp
union of size M = 1) the transform raises `KeyError` and produces no
row sequence at all — in particular there is no row for the
(region, timestamp) pair ("FI", 0), instead of exactly one. -/
theorem C1_counterexample :
    main_transform ⟨true, [("EE", []), ("FI", [⟨0, 1⟩])]⟩ =
      some (.error (.keyError "timestamp")) ∧
    (((main_transform ⟨true, [("EE", []), ("FI", [⟨0, 1⟩])]⟩).getD
      (.ok [])).toOption.getD []).countP
      (fun r => r.area == "FI" && r.time == 0) = 0 := by
  constructor
  · decide
  · decide

/-- C1 amended: for every successful PriceResponse whose normalized
regions all have a non-empty, duplicate-free timestamp sequence, the
transform succeeds and its output has exactly (hence at most) N×M rows
— N the number of normalized regions, M the size of the union of the
per-region timestamp sets — with exactly one row per (region,
timestamp-in-union) pair, that row carrying the region's price at that
timestamp, or a missing value when the region has no such point
(the index lookup returns `none`). -/
theorem C1_one_row_per_pair (resp : PriceResponse)
    (hsucc : resp.success = true)
    (hne : ∀ c ∈ upperDict resp.data, c.2 ≠ ([] : List PricePoint))
    (hnd : ∀ c ∈ upperDict resp.data, (indexOf c.2).Nodup) :
    ∃ rows, main_transform resp = some (.ok rows) ∧
      rows.length = (upperDict resp.data).length *
        (allTimestamps (upperDict resp.data)).dedup.length ∧
      rows.length ≤ (upperDict resp.data).length *
        (allTimestamps (upperDict resp.data)).dedup.length ∧
      ∀ c ∈ (upperDict resp.data).map Prod.fst,
        ∀ t ∈ allTimestamps (upperDict resp.data),
          rows.countP (fun r => r.area == c && r.time == t) = 1 ∧
          (⟨t, c, (regionSeries (upperDict resp.data) c).lookup t⟩ :
            PriceRow) ∈ rows := by
  obtain ⟨rows, hconv, h1, h2⟩ := convert_complete (upperDict resp.data)
    (upperDict_keys_nodup resp.data) hne hnd
  refine ⟨rows, ?_, h1, le_of_eq h1, h2⟩
  unfold main_transform
  rw [hsucc, if_pos rfl, hconv]

/-- Witness for C1's amended theorem on the response `{"ee": [{0, 1}]}`. -/
theorem C1_one_row_per_pair_witness :
    ∃ rows, main_transform ⟨true, [("ee", [⟨0, 1⟩])]⟩ = some (.ok rows) ∧
      rows.length = (upperDict [("ee", [(⟨0, 1⟩ : PricePoint)])]).length *
        (allTimestamps
          (upperDict [("ee", [(⟨0, 1⟩ : PricePoint)])])).dedup.length ∧
      rows.length ≤ (upperDict [("ee", [(⟨0, 1⟩ : PricePoint)])]).length *
        (allTimestamps
          (upperDict [("ee", [(⟨0, 1⟩ : PricePoint)])])).dedup.length ∧
      ∀ c ∈ (upperDict [("ee", [(⟨0, 1⟩ : PricePoint)])]).map Prod.fst,
        ∀ t ∈ allTimestamps (upperDict [("ee", [(⟨0, 1⟩ : PricePoint)])]),
          rows.countP (fun r => r.area == c && r.time == t) = 1 ∧
          (⟨t, c, (regionSeries
            (upperDict [("ee", [(⟨0, 1⟩ : PricePoint)])]) c).lookup t⟩ :
            PriceRow) ∈ rows :=
  C1_one_row_per_pair ⟨true, [("ee", [⟨0, 1⟩])]⟩ rfl (by decide) (by decide)
